import Mathlib

/-!
Shallow embedding of the OpenAI conversation agent
(custom_components/mycroft/__init__.py) for checking its specification.

The embedding models the turn handler `OpenAIAgent.async_process` as a pure
function from an environment (the outcomes of the external collaborators:
template rendering, the completion call, the service bus) and the in-memory
history map to either an uncaught Python exception or a process outcome
(the conversation result, the updated history, the messages sent to the
completion client, and the list of service calls attempted).
-/

namespace OAConv

/-- JSON values as produced by the Python json module: objects are ordered
key/value lists with Python dict semantics (a repeated key overwrites the
earlier value in place). Real-valued literals (fractions, exponents,
NaN/Infinity) are outside this model; no claim involves them. -/
inductive Json where
  | null
  | bool (b : Bool)
  | num (n : Int)
  | str (s : String)
  | arr (elems : List Json)
  | obj (members : List (String × Json))

/-- Python exceptions that can escape the statements modelled here. -/
inductive PyErr where
  | keyError (key : String)
  | typeError (msg : String)
  | jsonDecodeError (msg : String)
  | unboundLocalError (name : String)
deriving DecidableEq

/-- Single-quote character, used by Python str/repr of exceptions and strings. -/
def sq : String := String.singleton (Char.ofNat 39)

/-- Python str() of an exception, as interpolated by the f-strings in the
source. str(KeyError(k)) is the repr of the key; positions are omitted from
decode-error messages. -/
def pyErrStr : PyErr → String
  | .keyError k => sq ++ k ++ sq
  | .typeError m => m
  | .jsonDecodeError m => m
  | .unboundLocalError n =>
      "local variable " ++ sq ++ n ++ sq ++ " referenced before assignment"

/-- Python dict lookup on an ordered association list. -/
def pyDictGet {α : Type} (m : List (String × α)) (k : String) : Option α :=
  match m with
  | [] => none
  | (k', v) :: rest => if k' = k then some v else pyDictGet rest k

/-- Python dict insertion: overwrites an existing key in place, otherwise
appends at the end (insertion order is preserved). -/
def pyDictInsert {α : Type} (m : List (String × α)) (k : String) (v : α) :
    List (String × α) :=
  match m with
  | [] => [(k, v)]
  | (k', v') :: rest =>
      if k' = k then (k', v) :: rest else (k', v') :: pyDictInsert rest k v

/-- Python `x[k]` for a string key `k` on a decoded JSON value: KeyError on a
dict without the key, TypeError on every non-dict value. -/
def pyGetItemStr (v : Json) (k : String) : Except PyErr Json :=
  match v with
  | .obj m =>
      match pyDictGet m k with
      | some x => .ok x
      | none => .error (.keyError k)
  | .arr _ => .error (.typeError "list indices must be integers or slices, not str")
  | .str _ => .error (.typeError "string indices must be integers")
  | .num _ => .error (.typeError "int is not subscriptable")
  | .bool _ => .error (.typeError "bool is not subscriptable")
  | .null => .error (.typeError "NoneType is not subscriptable")

/-- Python `k in x.keys()` for a decoded JSON dict. -/
def hasKey (v : Json) (k : String) : Bool :=
  match v with
  | .obj m => (pyDictGet m k).isSome
  | _ => false

/-- Total lookup used only under a `hasKey` guard. -/
def jGetD (v : Json) (k : String) : Json :=
  match v with
  | .obj m => (pyDictGet m k).getD .null
  | _ => .null

/-- Python `type(x) == dict`. -/
def Json.isObj : Json → Bool
  | .obj _ => true
  | _ => false

/-! ### The JSON reader, modelling Python `json.loads` (strict mode). -/

/-- JSON whitespace accepted between tokens. -/
def isJsonWs (c : Char) : Bool :=
  c = ' ' || c = '\t' || c = '\n' || c = '\r'

def skipWs : List Char → List Char
  | [] => []
  | c :: cs => if isJsonWs c then skipWs cs else c :: cs

def hexVal (c : Char) : Option Nat :=
  if '0' ≤ c ∧ c ≤ '9' then some (c.toNat - 48)
  else if 'a' ≤ c ∧ c ≤ 'f' then some (c.toNat - 97 + 10)
  else if 'A' ≤ c ∧ c ≤ 'F' then some (c.toNat - 65 + 10)
  else none

/-- Body of a string literal, after the opening quote. Strict mode: raw
control characters are rejected; the standard escapes and \uXXXX are
accepted. -/
def parseStrBody (fuel : Nat) (cs : List Char) (acc : List Char) :
    Except String (String × List Char) :=
  match fuel with
  | 0 => .error "Unterminated string"
  | fuel + 1 =>
    match cs with
    | [] => .error "Unterminated string"
    | '"' :: rest => .ok (String.mk acc.reverse, rest)
    | '\\' :: rest =>
      match rest with
      | [] => .error "Unterminated string"
      | e :: rest2 =>
        if e = '"' then parseStrBody fuel rest2 ('"' :: acc)
        else if e = '\\' then parseStrBody fuel rest2 ('\\' :: acc)
        else if e = '/' then parseStrBody fuel rest2 ('/' :: acc)
        else if e = 'b' then parseStrBody fuel rest2 (Char.ofNat 8 :: acc)
        else if e = 'f' then parseStrBody fuel rest2 (Char.ofNat 12 :: acc)
        else if e = 'n' then parseStrBody fuel rest2 ('\n' :: acc)
        else if e = 'r' then parseStrBody fuel rest2 ('\r' :: acc)
        else if e = 't' then parseStrBody fuel rest2 ('\t' :: acc)
        else if e = 'u' then
          match rest2 with
          | a :: b :: c :: d :: rest3 =>
            match hexVal a, hexVal b, hexVal c, hexVal d with
            | some ha, some hb, some hc, some hd =>
                parseStrBody fuel rest3
                  (Char.ofNat (((ha * 16 + hb) * 16 + hc) * 16 + hd) :: acc)
            | _, _, _, _ => .error "Invalid hex escape"
          | _ => .error "Invalid hex escape"
        else .error "Invalid escape"
    | c :: rest =>
      if c.toNat < 32 then .error "Invalid control character"
      else parseStrBody fuel rest (c :: acc)

/-- Splits the leading run of decimal digits. -/
def splitDigits : List Char → (List Char × List Char)
  | [] => ([], [])
  | c :: cs =>
      if c.isDigit then
        let (d, r) := splitDigits cs
        (c :: d, r)
      else ([], c :: cs)

def digitsToNat (ds : List Char) : Nat :=
  ds.foldl (fun a c => a * 10 + (c.toNat - 48)) 0

/-- An integer literal per the JSON grammar (a leading zero ends the number,
as in Python, whose number regex then leaves the rest of the digits behind).
A fraction or exponent would yield a Python float; real-valued literals are
outside this model and are mapped to a decode error. -/
def parseNumber (cs : List Char) : Except String (Json × List Char) :=
  let (neg, cs1) := match cs with
    | '-' :: r => (true, r)
    | _ => (false, cs)
  match cs1 with
  | [] => .error "Expecting value"
  | c :: rest0 =>
    if !c.isDigit then .error "Expecting value"
    else
      let (ds, rest) := if c = '0' then ([c], rest0) else splitDigits cs1
      match rest with
      | '.' :: _ => .error "Real-valued literal outside model"
      | 'e' :: _ => .error "Real-valued literal outside model"
      | 'E' :: _ => .error "Real-valued literal outside model"
      | _ =>
          let n : Int := Int.ofNat (digitsToNat ds)
          .ok (Json.num (if neg then -n else n), rest)

/-- Parsing mode: a value, the members of an object after its opening brace,
or the elements of an array after its opening bracket. -/
inductive PMode where
  | val
  | membersStart
  | members (acc : List (String × Json))
  | elemsStart
  | elems (acc : List Json)

/-- One recursive descent over the input, fuel-indexed so that the
definition is structurally recursive and kernel-reducible. -/
def parseCore (fuel : Nat) (mode : PMode) (cs : List Char) :
    Except String (Json × List Char) :=
  match fuel with
  | 0 => .error "Nesting too deep"
  | fuel + 1 =>
    match mode with
    | .val =>
      match skipWs cs with
      | [] => .error "Expecting value"
      | c :: rest =>
        if c = '"' then
          match parseStrBody fuel rest [] with
          | .error e => .error e
          | .ok (s, r) => .ok (Json.str s, r)
        else if c = '{' then parseCore fuel .membersStart rest
        else if c = '[' then parseCore fuel .elemsStart rest
        else if c = 't' then
          match rest with
          | 'r' :: 'u' :: 'e' :: r => .ok (Json.bool true, r)
          | _ => .error "Expecting value"
        else if c = 'f' then
          match rest with
          | 'a' :: 'l' :: 's' :: 'e' :: r => .ok (Json.bool false, r)
          | _ => .error "Expecting value"
        else if c = 'n' then
          match rest with
          | 'u' :: 'l' :: 'l' :: r => .ok (Json.null, r)
          | _ => .error "Expecting value"
        else if c = '-' || c.isDigit then parseNumber (c :: rest)
        else .error "Expecting value"
    | .membersStart =>
      match skipWs cs with
      | '}' :: rest => .ok (Json.obj [], rest)
      | cs' => parseCore fuel (.members []) cs'
    | .members acc =>
      match skipWs cs with
      | '"' :: rest =>
        (match parseStrBody fuel rest [] with
         | .error e => .error e
         | .ok (k, rest2) =>
           match skipWs rest2 with
           | ':' :: rest3 =>
             (match parseCore fuel .val rest3 with
              | .error e => .error e
              | .ok (v, rest4) =>
                let acc' := pyDictInsert acc k v
                match skipWs rest4 with
                | ',' :: rest5 => parseCore fuel (.members acc') rest5
                | '}' :: rest5 => .ok (Json.obj acc', rest5)
                | _ => .error "Expecting comma delimiter")
           | _ => .error "Expecting colon delimiter")
      | _ => .error "Expecting property name enclosed in double quotes"
    | .elemsStart =>
      match skipWs cs with
      | ']' :: rest => .ok (Json.arr [], rest)
      | cs' => parseCore fuel (.elems []) cs'
    | .elems acc =>
      match parseCore fuel .val cs with
      | .error e => .error e
      | .ok (v, rest) =>
        let acc' := acc ++ [v]
        match skipWs rest with
        | ',' :: rest2 => parseCore fuel (.elems acc') rest2
        | ']' :: rest2 => .ok (Json.arr acc', rest2)
        | _ => .error "Expecting comma delimiter"

/-- Python `json.loads`: parse one value and require only whitespace after
it. The fuel bound exceeds any need on real inputs (Python itself bounds
nesting by its recursion limit). -/
def jsonLoads (s : String) : Except PyErr Json :=
  match parseCore (2 * s.length + 4) .val s.data with
  | .error e => .error (.jsonDecodeError e)
  | .ok (v, rest) =>
      if (skipWs rest).isEmpty then .ok v
      else .error (.jsonDecodeError "Extra data")

/-! ### Python repr, as used by the f-string in the command error handler. -/

def hexDigit (n : Nat) : Char :=
  if n < 10 then Char.ofNat (48 + n) else Char.ofNat (87 + n)

/-- Escapes one character of a string repr, given the chosen quote. -/
def pyEscapeChar (quote : Char) (c : Char) : List Char :=
  if c = '\\' then ['\\', '\\']
  else if c = quote then ['\\', quote]
  else if c = '\n' then ['\\', 'n']
  else if c = '\r' then ['\\', 'r']
  else if c = '\t' then ['\\', 't']
  else if c.toNat < 32 || c.toNat = 127 then
    ['\\', 'x', hexDigit (c.toNat / 16), hexDigit (c.toNat % 16)]
  else [c]

/-- Python repr of a str: single-quoted, double-quoted when the text holds a
single quote but no double quote. -/
def pyReprStr (s : String) : String :=
  let quote : Char :=
    if s.data.contains (Char.ofNat 39) && !s.data.contains '"' then '"'
    else Char.ofNat 39
  String.mk (quote :: s.data.foldr (fun c acc => pyEscapeChar quote c ++ acc) [quote])

/-- Python repr of a value decoded by json.loads. -/
def pyRepr : Json → String
  | .null => "None"
  | .bool true => "True"
  | .bool false => "False"
  | .num n => toString n
  | .str s => pyReprStr s
  | .arr xs =>
      "[" ++ String.intercalate ", " (xs.attach.map (fun x => pyRepr x.1)) ++ "]"
  | .obj m =>
      "\x7b" ++
        String.intercalate ", "
          (m.attach.map (fun kv => pyReprStr kv.1.1 ++ ": " ++ pyRepr kv.1.2)) ++
        "\x7d"
termination_by j => sizeOf j
decreasing_by
  all_goals simp_wf
  · rcases x with ⟨v, hv⟩
    have h1 := List.sizeOf_lt_of_mem hv
    simp at h1 ⊢
    omega
  · rcases kv with ⟨⟨a, b⟩, hm⟩
    have h1 := List.sizeOf_lt_of_mem hm
    simp at h1 ⊢
    omega

/-- Python str of the three-element tuple interpolated by the handler. -/
def pyReprTuple3 (d s dt : Json) : String :=
  "(" ++ pyRepr d ++ ", " ++ pyRepr s ++ ", " ++ pyRepr dt ++ ")"

/-! ### The agent. -/

/-- One chat message, Python dict with role and content keys. -/
structure Message where
  role : String
  content : String
deriving DecidableEq

/-- The in-memory history map `self.history`, conversation id to messages. -/
abbrev History := List (String × List Message)

/-- The per-utterance input delivered by the host framework. -/
structure ConversationInput where
  text : String
  conversation_id : Option String
  language : String

/-- Outcomes of the external collaborators for one turn: the rendered
home-info template (or a TemplateError message), the fresh ulid, the raw
completion text (or an OpenAIError message), and the service bus, which
either succeeds or raises (given as str of the exception). Configuration is
the system prompt; the model/token/sampling options do not affect control
flow and are omitted. -/
structure Env where
  systemPrompt : String
  templateResult : Except String String
  newUlid : String
  completionResult : Except String String
  serviceCall : Json → Json → Json → Except String Unit

/-- Intent response error code used by the source (always UNKNOWN). -/
inductive ErrorCode where
  | unknown
deriving DecidableEq

/-- The host intent response: either speech (async_set_speech, holding the
Python value passed) or an error (async_set_error). -/
inductive Reply where
  | speech (language : String) (value : Json)
  | errorReply (language : String) (code : ErrorCode) (message : String)

/-- The envelope returned by every non-raising path. -/
structure ConversationResult where
  response : Reply
  conversation_id : String

/-- Observable outcome of one non-raising turn. -/
structure ProcessOutcome where
  result : ConversationResult
  history : History
  messagesSent : List Message
  serviceCalls : List (Json × Json × Json)

/-- The user turn as built by async_process: the raw text with the literal
instruction suffix appended (the typo is the source's). -/
def newUserMessage (text : String) : Message :=
  ⟨"user", text ++ " Answer in syntactially perfect json and only json,"⟩

/-- The new-conversation branch. On a TemplateError the source builds an
error intent response and then evaluates `conversation_id` in the
ConversationResult constructor; `conversation_id` has not been assigned on
this path, so Python raises UnboundLocalError out of async_process. On
success it draws a fresh ulid and seeds the five-message sequence. -/
def startConversation (env : Env) (new_message : Message) :
    Except PyErr (String × List Message) :=
  match env.templateResult with
  | .error _err => .error (.unboundLocalError "conversation_id")
  | .ok home_info_prompt =>
      .ok (env.newUlid,
        [⟨"user", env.systemPrompt⟩,
         ⟨"assistant", "\x7b\"comment\":\"Ok!\"\x7d"⟩,
         ⟨"user", home_info_prompt⟩,
         ⟨"assistant", "\x7b\"comment\":\"Got it!\"\x7d"⟩,
         new_message])

/-- Chooses the conversation id and messages list: a known id extends the
stored history with the new user turn, anything else starts fresh. -/
def chooseConversation (env : Env) (history : History)
    (input : ConversationInput) (new_message : Message) :
    Except PyErr (String × List Message) :=
  match input.conversation_id with
  | some cid =>
      match pyDictGet history cid with
      | some msgs => .ok (cid, msgs ++ [new_message])
      | none => startConversation env new_message
  | none => startConversation env new_message

/-- Python `response[-2:]`. -/
def pyLastTwo (s : String) : String :=
  String.mk (s.data.drop (s.data.length - 2))

/-- The one normalization applied before decoding. The source replaces the
response with its last two characters plus a closing brace
(`response[-2:] + "}"`), so a text ending in a trailing comma before the
brace becomes `,}}`. -/
def normalizeResponse (s : String) : String :=
  if pyLastTwo s = ",\x7d" then pyLastTwo s ++ "\x7d" else s

/-- The decode try-block: json.loads, then the required comment key. -/
def parseStage (response : String) : Except PyErr (Json × Json) := do
  let response_json ← jsonLoads response
  let comment ← pyGetItemStr response_json "comment"
  .ok (response_json, comment)

/-- The command except-handler: it looks the three keys up again to build
the message, so a command missing one of them re-raises KeyError out of
async_process. -/
def execHandler (cmd : Json) (errText : String) : Except PyErr Json := do
  let d ← pyGetItemStr cmd "domain"
  let s ← pyGetItemStr cmd "service"
  let dt ← pyGetItemStr cmd "data"
  .ok (.str ("Unable to execute: " ++ pyReprTuple3 d s dt ++ " \n Error: " ++ errText))

/-- The command try-block: only a value of dict type under the command key
is dispatched; any other shape is passed through silently. Returns the
final speech value and the service calls attempted. -/
def commandStage (env : Env) (response_json comment : Json) :
    Except PyErr (Json × List (Json × Json × Json)) :=
  if hasKey response_json "command" && (jGetD response_json "command").isObj then
    let cmd := jGetD response_json "command"
    match pyGetItemStr cmd "domain" with
    | .error e => (execHandler cmd (pyErrStr e)).map (fun c => (c, []))
    | .ok d =>
      match pyGetItemStr cmd "service" with
      | .error e => (execHandler cmd (pyErrStr e)).map (fun c => (c, []))
      | .ok s =>
        match pyGetItemStr cmd "data" with
        | .error e => (execHandler cmd (pyErrStr e)).map (fun c => (c, []))
        | .ok dt =>
          match env.serviceCall d s dt with
          | .error e => (execHandler cmd e).map (fun c => (c, [(d, s, dt)]))
          | .ok _ => .ok (comment, [(d, s, dt)])
  else
    .ok (comment, [])

/-- Everything after the completion call returns: normalization, decoding
with its fallback comment, and command dispatch. -/
def handleResponse (env : Env) (response0 : String) :
    Except PyErr (Json × List (Json × Json × Json)) :=
  let response := normalizeResponse response0
  match parseStage response with
  | .error err =>
      .ok (.str ("Unable to parse: " ++ response ++ " \n Error: " ++ pyErrStr err), [])
  | .ok (response_json, comment) => commandStage env response_json comment

/-- OpenAIAgent.async_process. An uncaught exception carries the history as
the handler leaves it (the history write precedes the decode). -/
def async_process (env : Env) (history : History) (input : ConversationInput) :
    Except (PyErr × History) ProcessOutcome :=
  let new_message := newUserMessage input.text
  match chooseConversation env history input new_message with
  | .error e => .error (e, history)
  | .ok (conversation_id, messages) =>
    match env.completionResult with
    | .error err =>
        .ok { result := ⟨.errorReply input.language .unknown
                          ("Sorry, I had a problem talking to OpenAI: " ++ err),
                         conversation_id⟩,
              history := history, messagesSent := messages, serviceCalls := [] }
    | .ok response0 =>
      let history2 :=
        pyDictInsert history conversation_id (messages ++ [⟨"assistant", response0⟩])
      match handleResponse env response0 with
      | .error e => .error (e, history2)
      | .ok (speech, calls) =>
          .ok { result := ⟨.speech input.language speech, conversation_id⟩,
                history := history2, messagesSent := messages, serviceCalls := calls }

/-- The exception, if any, that escapes async_process. -/
def raisesUncaught (r : Except (PyErr × History) ProcessOutcome) : Option PyErr :=
  match r with
  | .error (e, _) => some e
  | .ok _ => none

/-! ### Substring containment (for the fallback-comment claims). -/

def startsWith : List Char → List Char → Bool
  | [], _ => true
  | _ :: _, [] => false
  | a :: as1, b :: bs => if a = b then startsWith as1 bs else false

def strSub (needle hay : List Char) : Bool :=
  startsWith needle hay ||
    match hay with
    | [] => false
    | _ :: t => strSub needle t

/-- Whether needle occurs contiguously inside hay. -/
def containsSubstr (hay needle : String) : Bool :=
  strSub needle.data hay.data

/-! ### Helper lemmas. -/

theorem pyDictGet_insert_self {α : Type} (m : List (String × α)) (k : String) (v : α) :
    pyDictGet (pyDictInsert m k v) k = some v := by
  induction m with
  | nil => simp [pyDictInsert, pyDictGet]
  | cons hd tl ih =>
      by_cases h : hd.1 = k
      · simp [pyDictInsert, pyDictGet, h]
      · simp [pyDictInsert, pyDictGet, h, ih]

theorem startsWith_self_append (n post : List Char) :
    startsWith n (n ++ post) = true := by
  induction n with
  | nil => simp [startsWith]
  | cons c cs ih => simp [startsWith, ih]

theorem strSub_mid (pre n post : List Char) :
    strSub n (pre ++ (n ++ post)) = true := by
  induction pre with
  | nil =>
      simp only [List.nil_append]
      unfold strSub
      simp [startsWith_self_append]
  | cons c cs ih =>
      rw [List.cons_append]
      unfold strSub
      simp [ih]

theorem containsSubstr_mid (pre mid post : String) :
    containsSubstr (pre ++ mid ++ post) mid = true := by
  unfold containsSubstr
  have hd : (pre ++ mid ++ post).data = pre.data ++ (mid.data ++ post.data) := by
    simp [String.data_append]
  rw [hd]
  exact strSub_mid pre.data mid.data post.data

/-! ### Test fixtures shared by the concrete runs. -/

/-- Environment in which every external collaborator succeeds. -/
def testEnv : Env :=
  { systemPrompt := "You are Mycroft."
  , templateResult := .ok "Kitchen: light.kitchen is on"
  , newUlid := "01TESTULID"
  , completionResult := .ok "\x7b\"comment\":\"Ok!\"\x7d"
  , serviceCall := fun _ _ _ => .ok () }

/-- A first utterance with no conversation id. -/
def inputNew : ConversationInput := ⟨"hello", none, "en"⟩

set_option maxRecDepth 8192

/-! ### C1 -/

/-- The exact input named by the claim, a reply with a trailing comma. -/
def rawTrailingComma : String := "\x7b\"comment\":\"ok\",\x7d"

/-- What stripping the trailing comma before the closing brace would give. -/
def strippedTrailingComma : String := "\x7b\"comment\":\"ok\"\x7d"

/-- C1: the claim says the parser strips the trailing comma so the text
decodes with comment "ok". The code instead replaces the whole response
with its last two characters plus a brace, yielding the undecodable text
",\x7d\x7d", and the turn falls into the unable-to-parse fallback; the
properly stripped text would decode as the claim states, so the slice is a
slip in the code. -/
theorem c1_trailing_comma_normalization_bug :
    normalizeResponse rawTrailingComma = ",\x7d\x7d" ∧
    jsonLoads (normalizeResponse rawTrailingComma) =
      .error (.jsonDecodeError "Expecting value") ∧
    jsonLoads strippedTrailingComma = .ok (Json.obj [("comment", Json.str "ok")]) ∧
    handleResponse testEnv rawTrailingComma =
      .ok (.str "Unable to parse: ,\x7d\x7d \n Error: Expecting value", []) :=
  ⟨rfl, rfl, rfl, rfl⟩

/-! ### C2 -/

/-- First well-formed command object of the list. -/
def cmdObjA : Json :=
  Json.obj [("domain", .str "light"), ("service", .str "turn_on"), ("data", .obj [])]

/-- Second well-formed command object of the list. -/
def cmdObjB : Json :=
  Json.obj [("domain", .str "light"), ("service", .str "turn_off"), ("data", .obj [])]

/-- A model reply whose command value is a list of two well-formed
command objects. -/
def rawCmdList : String :=
  "\x7b\"comment\":\"done\",\"command\":[\x7b\"domain\":\"light\",\"service\":\"turn_on\",\"data\":\x7b\x7d\x7d,\x7b\"domain\":\"light\",\"service\":\"turn_off\",\"data\":\x7b\x7d\x7d]\x7d"

/-- Environment whose completion returns the two-command list reply. -/
def envCmdList : Env := { testEnv with completionResult := .ok rawCmdList }

/-- C2 counterexample: the decoded reply carries a list of two well-formed
command objects, yet the turn attempts zero service calls — the dispatcher
only acts on a value of dict type, so no call fires for a list. -/
theorem c2_two_command_list_counterexample :
    jsonLoads rawCmdList =
      .ok (Json.obj [("comment", Json.str "done"), ("command", Json.arr [cmdObjA, cmdObjB])]) ∧
    Except.map ProcessOutcome.serviceCalls (async_process envCmdList [] inputNew) =
      .ok [] :=
  ⟨rfl, rfl⟩

/-- C2 amended: a command value that is a list is never dispatched — the
dispatcher attempts no service call and the comment passes through
unchanged. -/
theorem c2_list_command_never_dispatched (env : Env) (rj comment : Json)
    (cmds : List Json) (h : jGetD rj "command" = Json.arr cmds) :
    commandStage env rj comment = .ok (comment, []) := by
  simp [commandStage, h, Json.isObj]

/-- C2 amended, witness at the two-command list. -/
theorem c2_list_command_never_dispatched_witness :
    commandStage testEnv
      (Json.obj [("comment", Json.str "done"), ("command", Json.arr [cmdObjA, cmdObjB])])
      (Json.str "done") = .ok (Json.str "done", []) :=
  c2_list_command_never_dispatched testEnv
    (Json.obj [("comment", Json.str "done"), ("command", Json.arr [cmdObjA, cmdObjB])])
    (Json.str "done") [cmdObjA, cmdObjB] rfl

/-! ### C3 -/

/-- A reply whose command object lacks the data key. -/
def rawMissingData : String :=
  "\x7b\"comment\":\"done\",\"command\":\x7b\"domain\":\"light\",\"service\":\"turn_on\"\x7d\x7d"

/-- Environment whose completion returns the data-less command reply. -/
def envMissingData : Env := { testEnv with completionResult := .ok rawMissingData }

/-- C3: the claim says async_process always returns exactly one result and
never lets an exception escape. Refuted: a command object missing the data
key raises KeyError inside the dispatch try-block, and the except handler
looks the same key up again while formatting its message, so the KeyError
escapes async_process (code bug). -/
theorem c3_missing_key_raises_uncaught :
    raisesUncaught (async_process envMissingData [] inputNew) =
      some (.keyError "data") :=
  rfl

/-! ### C4 -/

/-- Environment whose home-info template rendering raises TemplateError. -/
def envTemplateFail : Env := { testEnv with templateResult := .error "boom" }

/-- C4: the claim says a templating failure on a new conversation yields a
user-visible error reply. Refuted: the except TemplateError branch builds
the error response but then evaluates the unassigned local conversation_id,
so Python raises UnboundLocalError out of async_process instead of
returning a reply (code bug). The history is left unchanged, so the
no-history-entry half of the claim does hold. -/
theorem c4_template_error_raises_unbound_local :
    async_process envTemplateFail [] inputNew =
      .error (.unboundLocalError "conversation_id", []) :=
  rfl

/-! ### C5 -/

/-- C5 counterexample: the raw text "x,\x7d" is invalid JSON and ends in
",\x7d", so the normalization first rewrites it to ",\x7d\x7d"; the
fallback comment embeds that rewritten text and does not contain the
original raw text as a substring. -/
theorem c5_fallback_loses_raw_text_counterexample :
    handleResponse testEnv "x,\x7d" =
      .ok (.str "Unable to parse: ,\x7d\x7d \n Error: Expecting value", []) ∧
    containsSubstr "Unable to parse: ,\x7d\x7d \n Error: Expecting value" "x,\x7d"
      = false :=
  ⟨rfl, rfl⟩

/-- C5 amended: whenever decoding the normalized response (or extracting
its comment key) fails, the turn does not raise: it produces the fallback
comment with no command, and that comment contains the normalized response
text — equal to the original raw text whenever the raw text does not end in
",\x7d" — together with the error detail. -/
theorem c5_fallback_contains_normalized_text (env : Env) (raw : String) (e : PyErr)
    (h : parseStage (normalizeResponse raw) = .error e) :
    handleResponse env raw =
      .ok (.str ("Unable to parse: " ++ normalizeResponse raw ++ " \n Error: " ++ pyErrStr e), []) ∧
    containsSubstr ("Unable to parse: " ++ normalizeResponse raw ++ " \n Error: " ++ pyErrStr e)
      (normalizeResponse raw) = true ∧
    (pyLastTwo raw ≠ ",\x7d" → normalizeResponse raw = raw) := by
  refine ⟨?_, ?_, ?_⟩
  · simp [handleResponse, h]
  · have h2 := containsSubstr_mid "Unable to parse: " (normalizeResponse raw)
      (" \n Error: " ++ pyErrStr e)
    have h3 : "Unable to parse: " ++ normalizeResponse raw ++ (" \n Error: " ++ pyErrStr e)
        = "Unable to parse: " ++ normalizeResponse raw ++ " \n Error: " ++ pyErrStr e := by
      apply String.ext
      simp [String.data_append]
    rwa [h3] at h2
  · intro hne
    simp [normalizeResponse]
    intro heq
    exact absurd heq hne

/-- C5 amended, witness at an invalid raw text. -/
theorem c5_fallback_contains_normalized_text_witness :
    handleResponse testEnv "nonsense" =
      .ok (.str ("Unable to parse: " ++ normalizeResponse "nonsense" ++ " \n Error: " ++
        pyErrStr (.jsonDecodeError "Expecting value")), []) ∧
    containsSubstr ("Unable to parse: " ++ normalizeResponse "nonsense" ++ " \n Error: " ++
        pyErrStr (.jsonDecodeError "Expecting value")) (normalizeResponse "nonsense") = true ∧
    (pyLastTwo "nonsense" ≠ ",\x7d" → normalizeResponse "nonsense" = "nonsense") :=
  c5_fallback_contains_normalized_text testEnv "nonsense"
    (.jsonDecodeError "Expecting value") rfl

/-! ### C6 -/

/-- C6: when the decoded reply has no command key, or its command value is
not of dict type (null, a string, a number, ...), the turn attempts zero
service calls, raises nothing, and the decoded comment itself is the speech
of the reply. -/
theorem c6_non_object_command_passthrough (env : Env) (hist : History)
    (input : ConversationInput) (cid : String) (msgs : List Message)
    (raw : String) (rj comment : Json)
    (h1 : chooseConversation env hist input (newUserMessage input.text) = .ok (cid, msgs))
    (h2 : env.completionResult = .ok raw)
    (h3 : parseStage (normalizeResponse raw) = .ok (rj, comment))
    (h4 : hasKey rj "command" = false ∨ (jGetD rj "command").isObj = false) :
    async_process env hist input =
      .ok { result := ⟨.speech input.language comment, cid⟩
            history := pyDictInsert hist cid (msgs ++ [⟨"assistant", raw⟩])
            messagesSent := msgs
            serviceCalls := [] } := by
  have hc : commandStage env rj comment = .ok (comment, []) := by
    rcases h4 with h4 | h4 <;> simp [commandStage, h4]
  simp [async_process, h1, h2, handleResponse, h3, hc]

/-- A reply whose command value is a string. -/
def rawCmdString : String := "\x7b\"comment\":\"done\",\"command\":\"noop\"\x7d"

/-- Environment whose completion returns the string-command reply. -/
def envCmdString : Env := { testEnv with completionResult := .ok rawCmdString }

/-- The five seed messages of a new conversation under testEnv. -/
def seedMsgs : List Message :=
  [⟨"user", "You are Mycroft."⟩,
   ⟨"assistant", "\x7b\"comment\":\"Ok!\"\x7d"⟩,
   ⟨"user", "Kitchen: light.kitchen is on"⟩,
   ⟨"assistant", "\x7b\"comment\":\"Got it!\"\x7d"⟩,
   newUserMessage "hello"]

/-- C6 witness at a string-valued command. -/
theorem c6_non_object_command_passthrough_witness :
    async_process envCmdString [] inputNew =
      .ok { result := ⟨.speech "en" (.str "done"), "01TESTULID"⟩
            history := pyDictInsert [] "01TESTULID" (seedMsgs ++ [⟨"assistant", rawCmdString⟩])
            messagesSent := seedMsgs
            serviceCalls := [] } :=
  c6_non_object_command_passthrough envCmdString [] inputNew "01TESTULID" seedMsgs
    rawCmdString
    (Json.obj [("comment", Json.str "done"), ("command", Json.str "noop")])
    (Json.str "done") rfl rfl rfl (Or.inr rfl)

/-! ### C7 -/

/-- C7: when the decoded reply carries a command of dict type holding the
three keys, the turn attempts exactly one service call whose domain,
service and data are exactly those three values, whether or not the bus
call succeeds. -/
theorem c7_single_command_dispatched (env : Env) (hist : History)
    (input : ConversationInput) (cid : String) (msgs : List Message)
    (raw : String) (rj comment d s dt : Json)
    (h1 : chooseConversation env hist input (newUserMessage input.text) = .ok (cid, msgs))
    (h2 : env.completionResult = .ok raw)
    (h3 : parseStage (normalizeResponse raw) = .ok (rj, comment))
    (h4 : hasKey rj "command" = true)
    (h5 : (jGetD rj "command").isObj = true)
    (h6 : pyGetItemStr (jGetD rj "command") "domain" = .ok d)
    (h7 : pyGetItemStr (jGetD rj "command") "service" = .ok s)
    (h8 : pyGetItemStr (jGetD rj "command") "data" = .ok dt) :
    Except.map ProcessOutcome.serviceCalls (async_process env hist input) =
      .ok [(d, s, dt)] := by
  have hc : (commandStage env rj comment).map (fun r => r.2) = .ok [(d, s, dt)] := by
    cases hsc : env.serviceCall d s dt with
    | ok u =>
        simp [commandStage, h4, h5, h6, h7, h8, hsc]
        rfl
    | error e =>
        simp [commandStage, h4, h5, h6, h7, h8, hsc, execHandler]
        rfl
  cases hcs : commandStage env rj comment with
  | error e => rw [hcs] at hc; simp [Except.map] at hc
  | ok pr =>
      rw [hcs] at hc
      obtain ⟨sp, calls⟩ := pr
      simp [Except.map] at hc
      simp [async_process, h1, h2, handleResponse, h3, hcs, Except.map, hc]

/-- The single well-formed command object of the claim. -/
def cmdSingle : Json :=
  Json.obj [("domain", .str "light"), ("service", .str "turn_on"),
            ("data", Json.obj [("entity_id", .str "light.kitchen")])]

/-- A reply carrying the single well-formed command object. -/
def rawCmdSingle : String :=
  "\x7b\"comment\":\"done\",\"command\":\x7b\"domain\":\"light\",\"service\":\"turn_on\",\"data\":\x7b\"entity_id\":\"light.kitchen\"\x7d\x7d\x7d"

/-- Environment whose completion returns the single-command reply. -/
def envCmdSingle : Env := { testEnv with completionResult := .ok rawCmdSingle }

/-- C7 witness at the single well-formed command of the claim. -/
theorem c7_single_command_dispatched_witness :
    Except.map ProcessOutcome.serviceCalls (async_process envCmdSingle [] inputNew) =
      .ok [(Json.str "light", Json.str "turn_on",
            Json.obj [("entity_id", Json.str "light.kitchen")])] :=
  c7_single_command_dispatched envCmdSingle [] inputNew "01TESTULID" seedMsgs
    rawCmdSingle
    (Json.obj [("comment", Json.str "done"), ("command", cmdSingle)])
    (Json.str "done") (Json.str "light") (Json.str "turn_on")
    (Json.obj [("entity_id", Json.str "light.kitchen")])
    rfl rfl rfl rfl rfl rfl rfl rfl

/-! ### C8 -/

/-- C8: when the bus call of a dispatched well-formed command raises, the
exception is caught and the speech of the final reply is the single error
message naming the domain, service and data of the failing call; the
decoded comment (universally quantified here) is discarded. -/
theorem c8_service_error_replaces_comment (env : Env) (hist : History)
    (input : ConversationInput) (cid : String) (msgs : List Message)
    (raw : String) (rj comment d s dt : Json) (errMsg : String)
    (h1 : chooseConversation env hist input (newUserMessage input.text) = .ok (cid, msgs))
    (h2 : env.completionResult = .ok raw)
    (h3 : parseStage (normalizeResponse raw) = .ok (rj, comment))
    (h4 : hasKey rj "command" = true)
    (h5 : (jGetD rj "command").isObj = true)
    (h6 : pyGetItemStr (jGetD rj "command") "domain" = .ok d)
    (h7 : pyGetItemStr (jGetD rj "command") "service" = .ok s)
    (h8 : pyGetItemStr (jGetD rj "command") "data" = .ok dt)
    (hE : env.serviceCall d s dt = .error errMsg) :
    Except.map (fun o => o.result.response) (async_process env hist input) =
      .ok (.speech input.language
        (.str ("Unable to execute: " ++ pyReprTuple3 d s dt ++ " \n Error: " ++ errMsg))) := by
  have hc : commandStage env rj comment =
      .ok (.str ("Unable to execute: " ++ pyReprTuple3 d s dt ++ " \n Error: " ++ errMsg),
           [(d, s, dt)]) := by
    simp [commandStage, h4, h5, h6, h7, h8, hE, execHandler]
    rfl
  simp [async_process, h1, h2, handleResponse, h3, hc, Except.map]

/-- Environment whose completion returns the single-command reply and whose
service bus raises. -/
def envCmdFail : Env := { envCmdSingle with serviceCall := fun _ _ _ => .error "boom" }

/-- C8 witness: the bus raises "boom" on the single well-formed command. -/
theorem c8_service_error_replaces_comment_witness :
    Except.map (fun o => o.result.response) (async_process envCmdFail [] inputNew) =
      .ok (.speech "en"
        (.str ("Unable to execute: " ++
          pyReprTuple3 (Json.str "light") (Json.str "turn_on")
            (Json.obj [("entity_id", Json.str "light.kitchen")]) ++ " \n Error: " ++ "boom"))) := by
  exact c8_service_error_replaces_comment envCmdFail [] inputNew "01TESTULID" seedMsgs
    rawCmdSingle
    (Json.obj [("comment", Json.str "done"), ("command", cmdSingle)])
    (Json.str "done") (Json.str "light") (Json.str "turn_on")
    (Json.obj [("entity_id", Json.str "light.kitchen")]) "boom"
    rfl rfl rfl rfl rfl rfl rfl rfl rfl

/-! ### C9 -/

/-- C9: when a turn whose completion call succeeded is followed by an
utterance carrying that turn's conversation id, the messages list sent on
the second turn is exactly the first turn's messages, then the assistant
response recorded for the first turn, then the new user turn — a strict
prefix-extension; the history is never reset. -/
theorem c9_history_prefix_extension
    (env1 env2 : Env) (h0 : History) (input1 input2 : ConversationInput)
    (o1 o2 : ProcessOutcome) (raw1 : String)
    (ha : async_process env1 h0 input1 = .ok o1)
    (hb : env1.completionResult = .ok raw1)
    (he : input2.conversation_id = some o1.result.conversation_id)
    (hf : async_process env2 o1.history input2 = .ok o2) :
    o2.messagesSent =
      o1.messagesSent ++ [⟨"assistant", raw1⟩, newUserMessage input2.text] := by
  cases hcc : chooseConversation env1 h0 input1 (newUserMessage input1.text) with
  | error e => simp [async_process, hcc] at ha
  | ok pr =>
    obtain ⟨cid, msgs⟩ := pr
    cases hhr : handleResponse env1 raw1 with
    | error e => simp [async_process, hcc, hb, hhr] at ha
    | ok pr2 =>
      obtain ⟨sp, calls⟩ := pr2
      simp [async_process, hcc, hb, hhr] at ha
      subst ha
      simp only at he hf ⊢
      have hcc2 : chooseConversation env2
          (pyDictInsert h0 cid (msgs ++ [⟨"assistant", raw1⟩])) input2
          (newUserMessage input2.text) =
          .ok (cid, (msgs ++ [⟨"assistant", raw1⟩]) ++ [newUserMessage input2.text]) := by
        simp [chooseConversation, he, pyDictGet_insert_self]
      cases hc2 : env2.completionResult with
      | error err =>
          simp [async_process, hcc2, hc2] at hf
          subst hf
          simp
      | ok raw2 =>
        cases hhr2 : handleResponse env2 raw2 with
        | error e => simp [async_process, hcc2, hc2, hhr2] at hf
        | ok pr3 =>
          obtain ⟨sp2, calls2⟩ := pr3
          simp [async_process, hcc2, hc2, hhr2] at hf
          subst hf
          simp

/-- Second utterance continuing the test conversation. -/
def inputSecond : ConversationInput := ⟨"thanks", some "01TESTULID", "en"⟩

/-- The outcome of the first test turn. -/
def outFirst : ProcessOutcome :=
  { result := ⟨.speech "en" (.str "Ok!"), "01TESTULID"⟩
  , history := pyDictInsert [] "01TESTULID"
      (seedMsgs ++ [⟨"assistant", "\x7b\"comment\":\"Ok!\"\x7d"⟩])
  , messagesSent := seedMsgs
  , serviceCalls := [] }

/-- The outcome of the second test turn. -/
def outSecond : ProcessOutcome :=
  { result := ⟨.speech "en" (.str "Ok!"), "01TESTULID"⟩
  , history := pyDictInsert (outFirst.history) "01TESTULID"
      ((seedMsgs ++ [⟨"assistant", "\x7b\"comment\":\"Ok!\"\x7d"⟩, newUserMessage "thanks"]) ++
        [⟨"assistant", "\x7b\"comment\":\"Ok!\"\x7d"⟩])
  , messagesSent := seedMsgs ++ [⟨"assistant", "\x7b\"comment\":\"Ok!\"\x7d"⟩, newUserMessage "thanks"]
  , serviceCalls := [] }

/-- C9 witness: two concrete consecutive turns under testEnv. -/
theorem c9_history_prefix_extension_witness :
    outSecond.messagesSent =
      outFirst.messagesSent ++ [⟨"assistant", "\x7b\"comment\":\"Ok!\"\x7d"⟩,
        newUserMessage inputSecond.text] := by
  exact c9_history_prefix_extension testEnv testEnv [] inputNew inputSecond
    outFirst outSecond "\x7b\"comment\":\"Ok!\"\x7d" rfl rfl rfl rfl

/-! ### C10 -/

/-- C10: whichever branch chose the messages for the completion call, the
last entry — the user turn that is sent and then stored in the history — is
the input text with the literal instruction suffix appended, and therefore
never equals what the user said. -/
theorem c10_user_turn_suffixed (env : Env) (hist : History)
    (input : ConversationInput) (cid : String) (msgs : List Message)
    (h1 : chooseConversation env hist input (newUserMessage input.text) = .ok (cid, msgs)) :
    msgs.getLast? = some ⟨"user",
      input.text ++ " Answer in syntactially perfect json and only json,"⟩ ∧
    input.text ++ " Answer in syntactially perfect json and only json," ≠ input.text := by
  constructor
  · have hlast : msgs.getLast? = some (newUserMessage input.text) := by
      unfold chooseConversation at h1
      cases hci : input.conversation_id with
      | some c =>
          simp only [hci] at h1
          cases hg : pyDictGet hist c with
          | some m0 =>
              simp only [hg] at h1
              simp at h1
              obtain ⟨-, hmsgs⟩ := h1
              subst hmsgs
              simp [List.getLast?_concat]
          | none =>
              simp only [hg] at h1
              unfold startConversation at h1
              cases ht : env.templateResult with
              | error e => rw [ht] at h1; simp at h1
              | ok hip =>
                  rw [ht] at h1
                  simp at h1
                  obtain ⟨-, hmsgs⟩ := h1
                  subst hmsgs
                  rfl
      | none =>
          simp only [hci] at h1
          unfold startConversation at h1
          cases ht : env.templateResult with
          | error e => rw [ht] at h1; simp at h1
          | ok hip =>
              rw [ht] at h1
              simp at h1
              obtain ⟨-, hmsgs⟩ := h1
              subst hmsgs
              rfl
    rw [hlast]
    rfl
  · intro heq
    have hl := congrArg String.length heq
    rw [String.length_append] at hl
    simp at hl
    exact absurd hl (by decide)

/-- C10 witness at the concrete first turn. -/
theorem c10_user_turn_suffixed_witness :
    seedMsgs.getLast? = some ⟨"user",
      "hello" ++ " Answer in syntactially perfect json and only json,"⟩ ∧
    "hello" ++ " Answer in syntactially perfect json and only json," ≠ "hello" := by
  exact c10_user_turn_suffixed testEnv [] inputNew "01TESTULID" seedMsgs rfl

end OAConv
